import Mathlib

/-!
Verification development for the translation-resolution core of the
svelte-translate-pro library (src/lib/index.ts).

The embedding models the JavaScript runtime values that flow through
`getTranslation` and `loadTranslation`:

* `JSVal` is the universe of translation-tree values: a string leaf or a
  plain object, modelled as an association list in insertion order
  (JavaScript string-keyed objects preserve insertion order).
* Property access `obj[k]` on an object is association-list lookup.
  Property access on a string leaf is modelled as `undefined`; this is
  faithful to JavaScript for every key except `String.prototype`
  properties and numeric indices, which no claim exercises.
* JavaScript truthiness over `string | object | undefined` is `truthy`.
* `new RegExp ("\x7b\x7b" ++ k ++ "\x7d\x7d", "g")` followed by
  `String.replace` is modelled by `tokenize`/`scanReplace`: each pattern
  character is a literal except `.` which matches any non-line-terminator
  character.  This is faithful to JavaScript for variable names built
  from non-metacharacters and dots that do not form a brace quantifier;
  other regex metacharacters, and the quantifier parse triggered by a
  digits / digits-comma / digits-comma-digits name, are outside the
  model, and theorems that quantify over variable names assume neither
  occurs (`regexSpecial`, `quantifierShape`).
* Replacement strings are inserted literally, faithful for replacement
  values containing no `$` (JavaScript interprets some `$` sequences in
  string replacements); theorems that quantify over replacement values
  assume `$` does not occur.
-/

/-- JSVal models the JavaScript values stored in translation trees:
string leaves and plain objects (association lists in insertion order).
Source type: `TranslationData` in src/lib/index.ts lines 51-53. -/
inductive JSVal where
  | str : String → JSVal
  | obj : List (String × JSVal) → JSVal
deriving Repr

/-- TransKey models the first parameter of `getTranslation`
(src/lib/index.ts line 202): either a dot-path string or a literal
per-language object (`TranslationObject`, line 67: language code to
string). -/
inductive TransKey where
  | strKey : String → TransKey
  | objKey : List (String × String) → TransKey
deriving Repr

/-- VarVal models an interpolation-variable value
(`string | TranslationObject`, src/lib/index.ts line 203). -/
inductive VarVal where
  | strVal : String → VarVal
  | objVal : List (String × String) → VarVal
deriving Repr

/-- DEFAULT_LANGUAGE (src/lib/index.ts line 37): `AppLanguages.EN`,
whose string value is "en" (line 14). -/
def DEFAULT_LANGUAGE : String := "en"

/-- jsGet models JavaScript property lookup `es[k]` on a plain object
represented as an association list: first binding wins, absent key is
`undefined` (`none`). -/
def jsGet {α : Type} : List (String × α) → String → Option α
  | [], _ => none
  | (k', v) :: rest, k => if k' = k then some v else jsGet rest k

/-- truthy models JavaScript truthiness of a
`string | object | undefined` value: `undefined` and the empty string
are falsy, every other string and every object is truthy. -/
def truthy : Option JSVal → Bool
  | none => false
  | some (JSVal.str s) => !(s == "")
  | some (JSVal.obj _) => true

/-- getProp models `o[k]` for a tree value `o`.  Lookup on an object is
`jsGet`; lookup on a string leaf is modelled as `undefined` (faithful to
JavaScript except for `String.prototype` properties and numeric
indices, which no claim exercises). -/
def getProp : JSVal → String → Option JSVal
  | JSVal.str _, _ => none
  | JSVal.obj es, k => jsGet es k

/-- reduceStep is the reducer lambda of the tree traversal
(src/lib/index.ts lines 216 and 222):
`(obj, k) => (obj and obj[k] ? obj[k] : undefined)`. -/
def reduceStep (obj : Option JSVal) (k : String) : Option JSVal :=
  let v := obj.bind (fun o => getProp o k)
  if truthy obj && truthy v then v else none

/-- splitChars splits a character list at every occurrence of the
separator character, keeping empty groups, exactly like
`String.prototype.split` with a one-character string separator. -/
def splitChars (sep : Char) : List Char → List (List Char)
  | [] => [[]]
  | c :: rest =>
    let r := splitChars sep rest
    if c = sep then [] :: r
    else
      match r with
      | [] => [[c]]
      | g :: gs => (c :: g) :: gs

/-- jsSplitDot models `key.split(".")` (src/lib/index.ts line 213): the
separator is the literal one-character string ".". -/
def jsSplitDot (s : String) : List String :=
  (splitChars '.' s.data).map String.mk

/-- strOr models the JavaScript `a || b` operator over
`string | undefined` operands: the left operand is kept when truthy
(defined and non-empty), otherwise the right operand is used. -/
def strOr (a b : Option String) : Option String :=
  match a with
  | some s => if s = "" then b else some s
  | none => b

/-- langObjSelect models the per-language selection chain
`key[language] || key[DEFAULT_LANGUAGE] || Object.values(key)[0] || ""`
(src/lib/index.ts line 211, and identically line 238 for variable
values).  `Object.values(key)[0]` is the first value in insertion
order. -/
def langObjSelect (es : List (String × String)) (language : String) : String :=
  match strOr (strOr (strOr (jsGet es language) (jsGet es DEFAULT_LANGUAGE))
      (es.head?.map Prod.snd)) (some "") with
  | some s => s
  | none => ""

/-- RTok is one token of the compiled placeholder regex: a literal
character or the `.` wildcard. -/
inductive RTok where
  | lit : Char → RTok
  | any : RTok
deriving Repr

/-- tokenize models `new RegExp (pat, "g")` for the patterns this
library builds (src/lib/index.ts line 243): every character is a
literal except `.`, which compiles to the any-character wildcard.
Other regex metacharacters are outside the model, as is the JavaScript
brace-quantifier parse that a digits, digits-comma, or
digits-comma-digits variable name triggers after the opening braces of
the placeholder; theorems quantifying over variable names exclude both
via `regexSpecial` and `quantifierShape`. -/
def tokenize (pat : String) : List RTok :=
  pat.data.map (fun c => if c = '.' then RTok.any else RTok.lit c)

/-- tokMatches: a literal token matches exactly its character; the
wildcard matches any character except the JavaScript line terminators. -/
def tokMatches : RTok → Char → Bool
  | RTok.lit l, c => l = c
  | RTok.any, c => !(c = '\n' || c = '\r' || c = '\u2028' || c = '\u2029')

/-- tokensMatch: the token list matches a prefix of the character list,
one character per token. -/
def tokensMatch : List RTok → List Char → Bool
  | [], _ => true
  | _ :: _, [] => false
  | t :: ts, c :: cs => tokMatches t c && tokensMatch ts cs

/-- scanReplaceFuel is the global-replace scanner with explicit fuel
(structural recursion so that closed evaluations reduce): at each
position, if the pattern matches, emit the replacement and skip the
matched characters, else keep one character and continue.  This is the
leftmost, non-overlapping semantics of `String.replace` with a global
regex. -/
def scanReplaceFuel (ts : List RTok) (repl : List Char) : Nat → List Char → List Char
  | _, [] => []
  | 0, s => s
  | fuel + 1, c :: cs =>
    if tokensMatch ts (c :: cs) then
      repl ++ scanReplaceFuel ts repl fuel (cs.drop (ts.length - 1))
    else
      c :: scanReplaceFuel ts repl fuel cs

/-- scanReplace runs the scanner with enough fuel for the whole input. -/
def scanReplace (ts : List RTok) (repl : List Char) (s : List Char) : List Char :=
  scanReplaceFuel ts repl s.length s

/-- interpolateVar models one iteration of the interpolation loop body
(src/lib/index.ts lines 234-243) applied to a string translation:
compute the localized substitution value (per-language chain for object
values, identity string coercion for string values) and globally
replace the placeholder token.  The replacement is inserted literally,
which matches `String.replace` only for substitution values containing
no dollar character (JavaScript gives dollar-dollar, dollar-ampersand,
and the before-match and after-match dollar forms special meaning in a
string replacement); theorems quantifying over substitution values
exclude the dollar character. -/
def interpolateVar (language : String) (s : String) (varKey : String) (value : VarVal) : String :=
  let localizedValue : String :=
    match value with
    | VarVal.objVal es => langObjSelect es language
    | VarVal.strVal v => v
  String.mk (scanReplace (tokenize ("\x7b\x7b" ++ varKey ++ "\x7d\x7d")) localizedValue.data s.data)

/-- typeErrorMsg is the TypeError raised by
`translation?.replace(...)` when `translation` is an object: objects in
a translation tree have no callable `replace` member. -/
def typeErrorMsg : String := "TypeError: translation.replace is not a function"

/-- interpolateAll models the `Object.keys(variables).forEach` loop
(src/lib/index.ts lines 233-244) over the accumulated `translation`
variable, in insertion order of the variables mapping.
`translation?.replace` short-circuits on `undefined`, replaces on a
string, and throws a TypeError on an object value. -/
def interpolateAll (language : String) (vars : List (String × VarVal))
    (translation : Option JSVal) : Except String (Option JSVal) :=
  vars.foldlM
    (fun tr kv =>
      match tr with
      | none => Except.ok none
      | some (JSVal.str s) =>
        Except.ok (some (JSVal.str (interpolateVar language s kv.1 kv.2)))
      | some (JSVal.obj _) => Except.error typeErrorMsg)
    translation

/-- warnMsg is the missing-translation diagnostic
(src/lib/index.ts line 228). -/
def warnMsg (key language : String) : String :=
  "Missing translation for key \"" ++ key ++ "\" in language \"" ++ language ++ "\""

/-- keyToJSVal embeds the original key argument as a runtime value, for
the final `translation || key` fallback. -/
def keyToJSVal : TransKey → JSVal
  | TransKey.strKey k => JSVal.str k
  | TransKey.objKey es => JSVal.obj (es.map (fun p => (p.1, JSVal.str p.2)))

/-- jsValOrKey models the final `translation || key`
(src/lib/index.ts line 246). -/
def jsValOrKey (tr : Option JSVal) (key : TransKey) : JSVal :=
  match tr with
  | some v => if truthy (some v) then v else keyToJSVal key
  | none => keyToJSVal key

/-- getTranslation is the resolver (src/lib/index.ts lines 201-247).
The result pairs the returned value (or the thrown TypeError) with the
list of emitted `console.warn` diagnostics.  Branches, in source order:
the per-language key-object chain (line 211); the dot-path traversal of
the page tree then the global tree (lines 213-225); the missing-key
early return of the original key with one warning (lines 227-230); the
interpolation loop (lines 233-244); the final `translation || key`
(line 246). -/
def getTranslation (key : TransKey) (vars : List (String × VarVal))
    (language : String) (globalData : List (String × JSVal))
    (specificData : List (String × JSVal)) : Except String JSVal × List String :=
  match key with
  | TransKey.objKey es =>
    let translation := langObjSelect es language
    match interpolateAll language vars (some (JSVal.str translation)) with
    | Except.ok tr => (Except.ok (jsValOrKey tr key), [])
    | Except.error e => (Except.error e, [])
  | TransKey.strKey k =>
    let keys := jsSplitDot k
    let t1 := keys.foldl reduceStep (jsGet specificData language)
    let translation := if truthy t1 then t1 else keys.foldl reduceStep (jsGet globalData language)
    if truthy translation then
      match interpolateAll language vars translation with
      | Except.ok tr => (Except.ok (jsValOrKey tr key), [])
      | Except.error e => (Except.error e, [])
    else
      (Except.ok (JSVal.str k), [warnMsg k language])

/-- pathLookup is plain (truthiness-free) descent through a tree value:
it states that a tree holds a given leaf at a given segment path.  It is
a specification-level accessor used to phrase hypotheses about trees;
the bridge to the traversal the code performs is
`foldl_reduceStep_of_pathLookup`. -/
def pathLookup : Option JSVal → List String → Option JSVal
  | o, [] => o
  | some (JSVal.obj es), k :: ks => pathLookup (jsGet es k) ks
  | _, _ :: _ => none

/-- hasSubstr decides whether the pattern occurs as a contiguous
substring of the character list. -/
def hasSubstr (pat : List Char) : List Char → Bool
  | [] => pat.isEmpty
  | c :: cs => pat.isPrefixOf (c :: cs) || hasSubstr pat cs

/-- regexSpecial recognises the JavaScript regular-expression
metacharacters.  Variable names containing any of them compile to a
pattern whose behaviour the model does not cover (except `.`, which the
model does cover as the wildcard). -/
def regexSpecial (c : Char) : Bool :=
  ['.', '*', '+', '?', '(', ')', '[', ']', '\x7b', '\x7d', '^', '$', '|', '\\', '/'].contains c

/-- quantifierShape recognises the variable names whose splice into the
placeholder pattern turns the second opening brace into a JavaScript
brace quantifier on the first: a name of the form digits, digits-comma,
or digits-comma-digits makes the pattern brace-name-brace a valid
quantifier, so for example the name 2 gives a pattern matching two
opening braces followed by two closing braces instead of the literal
token.  Such names are excluded from the literal-replacement theorem. -/
def quantifierShape (cs : List Char) : Bool :=
  match splitChars ',' cs with
  | [ds] => !ds.isEmpty && ds.all Char.isDigit
  | [ds, ms] => !ds.isEmpty && ds.all Char.isDigit && (ms.isEmpty || ms.all Char.isDigit)
  | _ => false

/-- literalReplaceAllFuel is the specification-side replacement written
from the words of the spec: replace every literal occurrence of the
pattern, left to right, non-overlapping, treating every pattern
character literally.  It is compared with the regex-based scanner the
code uses in `scanReplaceFuel_eq_literal`. -/
def literalReplaceAllFuel (pat repl : List Char) : Nat → List Char → List Char
  | _, [] => []
  | 0, s => s
  | fuel + 1, c :: cs =>
    if pat.isPrefixOf (c :: cs) then
      repl ++ literalReplaceAllFuel pat repl fuel (cs.drop (pat.length - 1))
    else
      c :: literalReplaceAllFuel pat repl fuel cs

/-- literalReplaceAll runs the literal scanner over the whole input. -/
def literalReplaceAll (pat repl : List Char) (s : List Char) : List Char :=
  literalReplaceAllFuel pat repl s.length s

/-- I18nState is the module-level mutable state of the library: the
active language (src/lib/index.ts line 73), the global translations
store (line 79) and the page-specific translations store (line 85). -/
structure I18nState where
  activeLanguage : String
  globalStore : List (String × JSVal)
  pageStore : List (String × JSVal)
deriving Repr

/-- LoadSource models the `filePathOrData` parameter of
`loadTranslation` (src/lib/index.ts line 102): a path string handed to
the dynamic import, or already-materialised translation data. -/
inductive LoadSource where
  | path : String → LoadSource
  | data : JSVal → LoadSource
deriving Repr

/-- setEntry models the object-spread update
`(currentData) => (\x7b ...currentData, [language]: data \x7d)`
(src/lib/index.ts lines 106-109 and 112-115): an existing entry for the
language is replaced in place, otherwise the entry is appended.  On the
duplicate-free association lists the stores hold, this is exactly the
spread semantics. -/
def setEntry (es : List (String × JSVal)) (k : String) (v : JSVal) : List (String × JSVal) :=
  match es with
  | [] => [(k, v)]
  | (k', v') :: rest => if k' = k then (k, v) :: rest else (k', v') :: setEntry rest k v

/-- moduleTree models `data.default || data` (src/lib/index.ts
line 108): the default export when present and truthy, else the module
object itself. -/
def moduleTree (m : JSVal) : JSVal :=
  match getProp m "default" with
  | some d => if truthy (some d) then d else m
  | none => m

/-- devLogFile is the development-mode success diagnostic for a file
load (src/lib/index.ts line 110). -/
def devLogFile (language : String) : String :=
  "Translation file loaded for language: " ++ language

/-- devLogData is the development-mode success diagnostic for a data
load (src/lib/index.ts line 116). -/
def devLogData (language : String) : String :=
  "Translation data loaded for language: " ++ language

/-- errorLogMsg is the caught-failure diagnostic (src/lib/index.ts
lines 121 and 123), identifying the failed language and source. -/
def errorLogMsg (language : String) (src : LoadSource) (e : String) : String :=
  match src with
  | LoadSource.path p =>
    "Failed to load translation file for language \"" ++ language ++ "\" from \"" ++ p ++ "\": " ++ e
  | LoadSource.data _ =>
    "Failed to load translation data for language \"" ++ language ++ "\": " ++ e

/-- loadTranslationBody is the body of the `try` block of
`loadTranslation` (src/lib/index.ts lines 103-118).  For a path source
the awaited dynamic import is an injected external step, passed in as
`fetchResult`; its failure propagates out of the body.  On success the
global store is updated for exactly the loaded language and the active
language is set. -/
def loadTranslationBody (st : I18nState) (language : String) (src : LoadSource)
    (fetchResult : Except String JSVal) : Except String (I18nState × List String) :=
  match src with
  | LoadSource.path _ => do
    let m ← fetchResult
    Except.ok
      ({ st with
          globalStore := setEntry st.globalStore language (moduleTree m),
          activeLanguage := language },
        [devLogFile language])
  | LoadSource.data d =>
    Except.ok
      ({ st with
          globalStore := setEntry st.globalStore language d,
          activeLanguage := language },
        [devLogData language])

/-- loadTranslation is the whole async function (src/lib/index.ts
lines 102-126): the `catch` converts any failure of the body into a
logged diagnostic and a normally-fulfilled result that leaves the state
untouched, so the returned promise never rejects. -/
def loadTranslation (st : I18nState) (language : String) (src : LoadSource)
    (fetchResult : Except String JSVal) : I18nState × List String :=
  match loadTranslationBody st language src fetchResult with
  | Except.ok r => r
  | Except.error e => (st, [errorLogMsg language src e])

/-- setPageSpecificTranslations (src/lib/index.ts lines 175-181):
replaces the entire page store. -/
def setPageSpecificTranslations (st : I18nState) (data : List (String × JSVal)) :
    I18nState × List String :=
  ({ st with pageStore := data }, ["Page-specific translations updated."])

theorem jsGet_setEntry_ne (k k' : String) (v : JSVal) (h : k' ≠ k) :
    ∀ es : List (String × JSVal), jsGet (setEntry es k v) k' = jsGet es k' := by
  intro es
  induction es with
  | nil => simp [setEntry, jsGet, Ne.symm h]
  | cons hd tl ih =>
    obtain ⟨k0, v0⟩ := hd
    by_cases h0 : k0 = k
    · subst h0
      simp [setEntry, jsGet, Ne.symm h]
    · simp [setEntry, h0, jsGet, ih]

theorem getTranslation_congr_global (key : TransKey) (vars : List (String × VarVal))
    (language : String) (g g' p : List (String × JSVal))
    (h : jsGet g language = jsGet g' language) :
    getTranslation key vars language g p = getTranslation key vars language g' p := by
  cases key with
  | objKey es => rfl
  | strKey k => simp only [getTranslation, h]

theorem foldl_reduceStep_of_pathLookup :
    ∀ (segs : List String) (o : Option JSVal) (v : JSVal), segs ≠ [] →
      pathLookup o segs = some v →
      segs.foldl reduceStep o = (if truthy (some v) then some v else none) := by
  intro segs
  induction segs with
  | nil => intro o v h _; exact absurd rfl h
  | cons k ks ih =>
    intro o v _ hpl
    match o with
    | none => simp [pathLookup] at hpl
    | some (JSVal.str s) => simp [pathLookup] at hpl
    | some (JSVal.obj es) =>
      rw [pathLookup] at hpl
      cases ks with
      | nil =>
        rw [pathLookup] at hpl
        simp [List.foldl, reduceStep, getProp, hpl, truthy]
      | cons k2 ks2 =>
        match hes : jsGet es k with
        | none => rw [hes] at hpl; simp [pathLookup] at hpl
        | some (JSVal.str s') => rw [hes] at hpl; simp [pathLookup] at hpl
        | some (JSVal.obj es') =>
          rw [hes] at hpl
          have hstep : reduceStep (some (JSVal.obj es)) k = some (JSVal.obj es') := by
            simp [reduceStep, getProp, hes, truthy]
          rw [List.foldl_cons, hstep]
          exact ih (some (JSVal.obj es')) v (by simp) hpl

theorem tokensMatch_map_lit : ∀ (pat cs : List Char),
    tokensMatch (pat.map RTok.lit) cs = pat.isPrefixOf cs := by
  intro pat
  induction pat with
  | nil => intro cs; simp [tokensMatch, List.isPrefixOf]
  | cons p ps ih =>
    intro cs
    cases cs with
    | nil => simp [tokensMatch, List.isPrefixOf]
    | cons c cs' =>
      by_cases hpc : p = c <;>
        simp [tokensMatch, List.isPrefixOf, tokMatches, hpc, ih]

theorem scanReplaceFuel_eq_literal (pat repl : List Char) :
    ∀ (fuel : Nat) (s : List Char),
      scanReplaceFuel (pat.map RTok.lit) repl fuel s
        = literalReplaceAllFuel pat repl fuel s := by
  intro fuel
  induction fuel with
  | zero => intro s; cases s <;> simp [scanReplaceFuel, literalReplaceAllFuel]
  | succ n ih =>
    intro s
    cases s with
    | nil => simp [scanReplaceFuel, literalReplaceAllFuel]
    | cons c cs =>
      by_cases h : pat.isPrefixOf (c :: cs) <;>
        simp [scanReplaceFuel, literalReplaceAllFuel, tokensMatch_map_lit, h, ih]

theorem scanReplace_eq_literalReplaceAll (pat repl s : List Char) :
    scanReplace (pat.map RTok.lit) repl s = literalReplaceAll pat repl s :=
  scanReplaceFuel_eq_literal pat repl s.length s

theorem map_tokenize_of_no_dot : ∀ (cs : List Char), (∀ c ∈ cs, c ≠ '.') →
    cs.map (fun c => if c = '.' then RTok.any else RTok.lit c) = cs.map RTok.lit := by
  intro cs
  induction cs with
  | nil => intro _; rfl
  | cons c cs' ih =>
    intro h
    have hc : c ≠ '.' := h c (by simp)
    simp [hc, ih (fun d hd => h d (by simp [hd]))]

theorem getTranslation_objKey_nil_vars (es : List (String × String)) (L : String)
    (g p : List (String × JSVal)) :
    getTranslation (TransKey.objKey es) [] L g p
      = (Except.ok (jsValOrKey (some (JSVal.str (langObjSelect es L))) (TransKey.objKey es)), []) :=
  rfl

theorem jsValOrKey_str (s : String) (key : TransKey) (hs : s ≠ "") :
    jsValOrKey (some (JSVal.str s)) key = JSVal.str s := by
  simp [jsValOrKey, truthy, hs]

theorem langObjSelect_of_lang (es : List (String × String)) (L s : String)
    (h : jsGet es L = some s) (hs : s ≠ "") : langObjSelect es L = s := by
  simp [langObjSelect, strOr, h, hs]

theorem langObjSelect_of_default (es : List (String × String)) (L s : String)
    (hL : jsGet es L = none ∨ jsGet es L = some "")
    (h : jsGet es DEFAULT_LANGUAGE = some s) (hs : s ≠ "") : langObjSelect es L = s := by
  rcases hL with hL | hL <;> simp [langObjSelect, strOr, hL, h, hs]

theorem langObjSelect_of_head (es : List (String × String)) (L : String) (k0 v0 : String)
    (hL : jsGet es L = none ∨ jsGet es L = some "")
    (hD : jsGet es DEFAULT_LANGUAGE = none ∨ jsGet es DEFAULT_LANGUAGE = some "")
    (hh : es.head? = some (k0, v0)) (hv : v0 ≠ "") : langObjSelect es L = v0 := by
  rcases hL with hL | hL <;> rcases hD with hD | hD <;>
    simp [langObjSelect, strOr, hL, hD, hh, hv]

/-- C1: for every dot-path key P, language L, variables mapping, and
trees in which the traversal of P fails (yields a falsy result) in both
the page tree and the global tree for L, the resolver returns the
original key string P unchanged, emits exactly one warning diagnostic,
and applies no interpolation (the result does not depend on the
variables). -/
theorem c1_missing_key_returns_key_with_one_warning
    (P : String) (vars : List (String × VarVal)) (L : String)
    (g p : List (String × JSVal))
    (hp : truthy ((jsSplitDot P).foldl reduceStep (jsGet p L)) = false)
    (hg : truthy ((jsSplitDot P).foldl reduceStep (jsGet g L)) = false) :
    getTranslation (TransKey.strKey P) vars L g p
      = (Except.ok (JSVal.str P), [warnMsg P L]) := by
  simp [getTranslation, hp, hg]

/-- C1 witness: a concrete missing key, with a variable supplied, comes
back unchanged with exactly one warning. -/
theorem c1_witness :
    getTranslation (TransKey.strKey "missing.key") [("name", VarVal.strVal "N")] "en" [] []
      = (Except.ok (JSVal.str "missing.key"), [warnMsg "missing.key" "en"]) :=
  c1_missing_key_returns_key_with_one_warning "missing.key"
    [("name", VarVal.strVal "N")] "en" [] [] rfl rfl

/-- C2: whenever traversal of the page tree yields a non-empty string
leaf, the resolver never consults the global tree (the result is the
same for every global tree); in particular, with global en.a = "G" and
page en.a = "P", resolving "a" for "en" yields "P". -/
theorem c2_page_tree_shadows_global
    (P : String) (vars : List (String × VarVal)) (L s : String)
    (p : List (String × JSVal))
    (hpage : (jsSplitDot P).foldl reduceStep (jsGet p L) = some (JSVal.str s))
    (hs : s ≠ "") :
    (∀ g g' : List (String × JSVal),
        getTranslation (TransKey.strKey P) vars L g p
          = getTranslation (TransKey.strKey P) vars L g' p)
    ∧ getTranslation (TransKey.strKey "a") [] "en"
        [("en", JSVal.obj [("a", JSVal.str "G")])]
        [("en", JSVal.obj [("a", JSVal.str "P")])]
        = (Except.ok (JSVal.str "P"), []) := by
  constructor
  · intro g g'
    simp [getTranslation, hpage, truthy, hs]
  · rfl

/-- C2 witness: at the concrete shadowing instance, replacing the
global tree by the empty tree does not change the result. -/
theorem c2_witness :
    getTranslation (TransKey.strKey "a") [] "en"
      [("en", JSVal.obj [("a", JSVal.str "G")])]
      [("en", JSVal.obj [("a", JSVal.str "P")])]
      = getTranslation (TransKey.strKey "a") [] "en" []
        [("en", JSVal.obj [("a", JSVal.str "P")])] :=
  (c2_page_tree_shadows_global "a" [] "en" "P"
    [("en", JSVal.obj [("a", JSVal.str "P")])] rfl (by decide)).1
    [("en", JSVal.obj [("a", JSVal.str "G")])] []

/-- C3: the resolver is not total.  When the dot-path traversal stops on
an intermediate object node of the tree (a truthy non-string leaf) and
interpolation variables are supplied, `translation.replace` is applied
to an object and throws a TypeError; with no variables the same input
makes the function return the object itself, which is not a string.
This contradicts both the declared return type of `getTranslation`
(src/lib/index.ts line 207) and the spec sentence that the resolver is
total and always returns a string. -/
theorem c3_object_leaf_violates_totality :
    getTranslation (TransKey.strKey "a") [("x", VarVal.strVal "1")] "en"
      [("en", JSVal.obj [("a", JSVal.obj [("b", JSVal.str "x")])])] []
      = (Except.error typeErrorMsg, [])
    ∧ getTranslation (TransKey.strKey "a") [] "en"
      [("en", JSVal.obj [("a", JSVal.obj [("b", JSVal.str "x")])])] []
      = (Except.ok (JSVal.obj [("b", JSVal.str "x")]), []) :=
  ⟨rfl, rfl⟩

/-- C4: a literal flat entry whose key contains a dot is never consulted
by the resolver: the key is always split on dots and traversed segment
by segment, there is no flat-key fallback, so the README example tree
with the flat entry "navbar.title" resolves to the key itself with a
missing-translation warning instead of the stored string. -/
theorem c4_flat_dotted_key_unreachable :
    getTranslation (TransKey.strKey "navbar.title") [] "en"
      [("en", JSVal.obj [("navbar.title", JSVal.str "Bienvenue")])] []
      = (Except.ok (JSVal.str "navbar.title"), [warnMsg "navbar.title" "en"]) :=
  rfl

/-- C5 counterexample: resolving the empty per-language key object does
not produce the empty string.  The selection chain does produce the
empty string, but the final `translation || key` fallback sees a falsy
value and returns the original key object itself, which is not a
string. -/
theorem c5_counterexample :
    (getTranslation (TransKey.objKey []) [] "en" [] []).1 = Except.ok (JSVal.obj [])
    ∧ JSVal.obj [] ≠ JSVal.str "" :=
  ⟨rfl, fun h => JSVal.noConfusion h⟩

/-- C5 amended: for a per-language key object K the resolver selects
K[L] when truthy, else K[defaultLanguage] when truthy, else the first
value of K in insertion order when truthy; interpolation is still
applied to the selected value; but when K is empty (the selection chain
yields the empty string) the final falsy-value fallback returns the
original key object K itself rather than the empty string. -/
theorem c5_amended_key_object_chain (es : List (String × String)) (L : String)
    (g p : List (String × JSVal)) :
    (∀ s : String, jsGet es L = some s → s ≠ "" →
      getTranslation (TransKey.objKey es) [] L g p = (Except.ok (JSVal.str s), []))
    ∧ (∀ s : String, (jsGet es L = none ∨ jsGet es L = some "") →
        jsGet es DEFAULT_LANGUAGE = some s → s ≠ "" →
        getTranslation (TransKey.objKey es) [] L g p = (Except.ok (JSVal.str s), []))
    ∧ (∀ k0 v0 : String, (jsGet es L = none ∨ jsGet es L = some "") →
        (jsGet es DEFAULT_LANGUAGE = none ∨ jsGet es DEFAULT_LANGUAGE = some "") →
        es.head? = some (k0, v0) → v0 ≠ "" →
        getTranslation (TransKey.objKey es) [] L g p = (Except.ok (JSVal.str v0), []))
    ∧ getTranslation (TransKey.objKey []) [] L g p = (Except.ok (JSVal.obj []), [])
    ∧ getTranslation (TransKey.objKey [("en", "Hi \x7b\x7bn\x7d\x7d")])
        [("n", VarVal.strVal "Sam")] "en" g p = (Except.ok (JSVal.str "Hi Sam"), []) := by
  refine ⟨?_, ?_, ?_, rfl, rfl⟩
  · intro s h hs
    rw [getTranslation_objKey_nil_vars, langObjSelect_of_lang es L s h hs,
      jsValOrKey_str s _ hs]
  · intro s hL h hs
    rw [getTranslation_objKey_nil_vars, langObjSelect_of_default es L s hL h hs,
      jsValOrKey_str s _ hs]
  · intro k0 v0 hL hD hh hv
    rw [getTranslation_objKey_nil_vars, langObjSelect_of_head es L k0 v0 hL hD hh hv,
      jsValOrKey_str v0 _ hv]

/-- C5 witness: the default-language fallback of the amended chain at a
concrete key object with no entry for the requested language. -/
theorem c5_witness :
    getTranslation (TransKey.objKey [("en", "Hello")]) [] "fa" [] []
      = (Except.ok (JSVal.str "Hello"), []) :=
  (c5_amended_key_object_chain [("en", "Hello")] "fa" [] []).2.1 "Hello"
    (Or.inl rfl) rfl (by decide)

/-- C6: a failed load (the awaited import rejects) is caught inside
`loadTranslation`: the call still returns normally (the promise
fulfills), one error diagnostic naming the language and the source is
logged, and the state — active language, global tree and page tree — is
exactly the state before the call. -/
theorem c6_failed_load_preserves_state (st : I18nState) (language p e : String) :
    loadTranslation st language (LoadSource.path p) (Except.error e)
      = (st, [errorLogMsg language (LoadSource.path p) e]) :=
  rfl

/-- C7: loading data for language B after language A replaces only the
entry for B in the global store: the entry for A is untouched, and
every resolution for language A over the resulting global store gives
exactly the result it gave before B was loaded. -/
theorem c7_loading_b_preserves_a (A B : String) (tA tB : JSVal) (st0 : I18nState)
    (f1 f2 : Except String JSVal) (hAB : A ≠ B) :
    jsGet (loadTranslation (loadTranslation st0 A (LoadSource.data tA) f1).1 B
        (LoadSource.data tB) f2).1.globalStore A
      = jsGet (loadTranslation st0 A (LoadSource.data tA) f1).1.globalStore A
    ∧ ∀ (key : TransKey) (vars : List (String × VarVal)) (p : List (String × JSVal)),
        getTranslation key vars A
          (loadTranslation (loadTranslation st0 A (LoadSource.data tA) f1).1 B
            (LoadSource.data tB) f2).1.globalStore p
          = getTranslation key vars A
            (loadTranslation st0 A (LoadSource.data tA) f1).1.globalStore p := by
  have hmain : ∀ st : I18nState,
      jsGet (loadTranslation st B (LoadSource.data tB) f2).1.globalStore A
        = jsGet st.globalStore A := by
    intro st
    show jsGet (setEntry st.globalStore B tB) A = jsGet st.globalStore A
    exact jsGet_setEntry_ne B A tB hAB st.globalStore
  exact ⟨hmain _, fun key vars p =>
    getTranslation_congr_global key vars A _ _ p (hmain _)⟩

/-- C7 witness: after loading English then Persian data, the English
key still resolves to its English string. -/
theorem c7_witness :
    getTranslation (TransKey.strKey "greeting") [] "en"
      (loadTranslation (loadTranslation ⟨"en", [], []⟩ "en"
        (LoadSource.data (JSVal.obj [("greeting", JSVal.str "Hello")]))
        (Except.ok (JSVal.obj []))).1 "fa"
        (LoadSource.data (JSVal.obj [("greeting", JSVal.str "Salam")]))
        (Except.ok (JSVal.obj []))).1.globalStore []
      = getTranslation (TransKey.strKey "greeting") [] "en"
        (loadTranslation ⟨"en", [], []⟩ "en"
          (LoadSource.data (JSVal.obj [("greeting", JSVal.str "Hello")]))
          (Except.ok (JSVal.obj []))).1.globalStore [] :=
  (c7_loading_b_preserves_a "en" "fa" (JSVal.obj [("greeting", JSVal.str "Hello")])
    (JSVal.obj [("greeting", JSVal.str "Salam")]) ⟨"en", [], []⟩
    (Except.ok (JSVal.obj [])) (Except.ok (JSVal.obj [])) (by decide)).2
    (TransKey.strKey "greeting") [] []

/-- C8: when the page tree holds the empty string as the leaf at path P
for language L and the global tree holds a non-empty string leaf at the
same path, resolution falls through the page tree (the falsy leaf is
treated as absent) and returns the global leaf. -/
theorem c8_empty_string_leaf_falls_through (P L s : String)
    (g p : List (String × JSVal))
    (hne : jsSplitDot P ≠ [])
    (hp : pathLookup (jsGet p L) (jsSplitDot P) = some (JSVal.str ""))
    (hg : pathLookup (jsGet g L) (jsSplitDot P) = some (JSVal.str s))
    (hs : s ≠ "") :
    getTranslation (TransKey.strKey P) [] L g p = (Except.ok (JSVal.str s), []) := by
  have h1 : (jsSplitDot P).foldl reduceStep (jsGet p L) = none := by
    rw [foldl_reduceStep_of_pathLookup _ _ _ hne hp]; simp [truthy]
  have h2 : (jsSplitDot P).foldl reduceStep (jsGet g L) = some (JSVal.str s) := by
    rw [foldl_reduceStep_of_pathLookup _ _ _ hne hg]; simp [truthy, hs]
  simp [getTranslation, h1, h2, truthy, hs, interpolateAll, jsValOrKey,
    List.foldlM, pure, Except.pure]

/-- C8 witness: a concrete empty-string page leaf falls through to the
global leaf. -/
theorem c8_witness :
    getTranslation (TransKey.strKey "a") [] "en"
      [("en", JSVal.obj [("a", JSVal.str "G")])]
      [("en", JSVal.obj [("a", JSVal.str "")])]
      = (Except.ok (JSVal.str "G"), []) :=
  c8_empty_string_leaf_falls_through "a" "en" "G"
    [("en", JSVal.obj [("a", JSVal.str "G")])]
    [("en", JSVal.obj [("a", JSVal.str "")])]
    (by decide) rfl rfl (by decide)

/-- C9 counterexample: variable names are spliced unescaped into the
placeholder regex, so a name containing a regex metacharacter does not
match only the literal token.  With the variable name a.b the dot is a
wildcard: the translation consists of the token around the letter z,
which is not a literal occurrence of the a.b token (second conjunct),
yet it is replaced by the substitution value. -/
theorem c9_counterexample :
    getTranslation (TransKey.strKey "k") [("a.b", VarVal.strVal "V")] "en"
      [("en", JSVal.obj [("k", JSVal.str "\x7b\x7bazb\x7d\x7d")])] []
      = (Except.ok (JSVal.str "V"), [])
    ∧ hasSubstr "\x7b\x7ba.b\x7d\x7d".data "\x7b\x7bazb\x7d\x7d".data = false :=
  ⟨rfl, rfl⟩

/-- C9 amended: for every variable name that contains no
regular-expression metacharacter and is not of brace-quantifier shape
(digits, digits-comma, or digits-comma-digits), interpolation of a
string value containing no dollar character replaces exactly the
literal occurrences of the placeholder token, globally and left to
right, and nothing else; this is stated as equality with
`literalReplaceAll`, the literal global-replacement function written
from the words of the spec.  Outside this domain the guarantee fails:
metacharacter names are spliced unescaped into the regex (the C9
counterexample), a quantifier-shaped name such as 2 compiles to a brace
quantifier that matches two opening braces and two closing braces
rather than the literal token, and dollar sequences in the replacement
value (dollar-dollar, dollar-ampersand, and the before-match and
after-match forms) are interpreted by `String.replace` instead of being
inserted literally. -/
theorem c9_amended_literal_names (varKey : String)
    (h : ∀ c ∈ varKey.data, regexSpecial c = false)
    (_hq : quantifierShape varKey.data = false) :
    ∀ (language s v : String), '$' ∉ v.data →
      interpolateVar language s varKey (VarVal.strVal v)
        = String.mk (literalReplaceAll ("\x7b\x7b" ++ varKey ++ "\x7d\x7d").data v.data s.data) := by
  intro language s v _
  have hd : ∀ c ∈ varKey.data, c ≠ '.' := by
    intro c hc heq
    have hcontra := h c hc
    rw [heq] at hcontra
    simp [regexSpecial] at hcontra
  have htok : tokenize ("\x7b\x7b" ++ varKey ++ "\x7d\x7d")
      = ("\x7b\x7b" ++ varKey ++ "\x7d\x7d").data.map RTok.lit := by
    apply map_tokenize_of_no_dot
    intro c hc
    rw [String.data_append, String.data_append] at hc
    have hbl : "\x7b\x7b".data = ['\x7b', '\x7b'] := rfl
    have hbr : "\x7d\x7d".data = ['\x7d', '\x7d'] := rfl
    rw [hbl, hbr] at hc
    rcases List.mem_append.mp hc with h1 | h2
    · rcases List.mem_append.mp h1 with h11 | h12
      · simp at h11
        subst h11
        decide
      · exact hd c h12
    · simp at h2
      subst h2
      decide
  show String.mk (scanReplace (tokenize ("\x7b\x7b" ++ varKey ++ "\x7d\x7d")) v.data s.data) = _
  rw [htok, scanReplace_eq_literalReplaceAll]

/-- C9 witness: the amended theorem evaluated at the ordinary variable
name and dollar-free value used by the README example. -/
theorem c9_amended_witness :
    interpolateVar "en" "Hello, \x7b\x7bname\x7d\x7d!" "name" (VarVal.strVal "John")
      = String.mk (literalReplaceAll ("\x7b\x7b" ++ "name" ++ "\x7d\x7d").data
          "John".data "Hello, \x7b\x7bname\x7d\x7d!".data) :=
  c9_amended_literal_names "name" (by decide) (by decide) "en" "Hello, \x7b\x7bname\x7d\x7d!"
    "John" (by decide)

/-- C10: interpolation is a sequential left fold in the iteration order
of the variables mapping over one accumulating string (first conjunct),
so a placeholder token introduced by the substitution value of an
earlier variable is replaced by a later variable (second conjunct), and
reversing the iteration order changes the final result (third
conjunct). -/
theorem c10_sequential_interpolation :
    (∀ (language t k1 k2 : String) (v1 v2 : VarVal),
      interpolateAll language [(k1, v1), (k2, v2)] (some (JSVal.str t))
        = Except.ok (some (JSVal.str
            (interpolateVar language (interpolateVar language t k1 v1) k2 v2))))
    ∧ getTranslation (TransKey.strKey "k")
        [("a", VarVal.strVal "\x7b\x7bb\x7d\x7d"), ("b", VarVal.strVal "B")] "en"
        [("en", JSVal.obj [("k", JSVal.str "X\x7b\x7ba\x7d\x7d")])] []
        = (Except.ok (JSVal.str "XB"), [])
    ∧ getTranslation (TransKey.strKey "k")
        [("b", VarVal.strVal "B"), ("a", VarVal.strVal "\x7b\x7bb\x7d\x7d")] "en"
        [("en", JSVal.obj [("k", JSVal.str "X\x7b\x7ba\x7d\x7d")])] []
        = (Except.ok (JSVal.str "X\x7b\x7bb\x7d\x7d"), []) :=
  ⟨fun _ _ _ _ _ _ => rfl, rfl, rfl⟩
